import Mathlib

/-!
Shallow embedding of the energy-contracts normalization and validation
pipeline. JavaScript strings are modelled by Lean strings (with splitting
done character-wise on the underlying character list), JavaScript numbers
by exact values (a parsed decimal is kept as an integer mantissa and a
decimal exponent, NaN as the missing case of an Option), thrown exceptions
by Except, and mutable objects, where aliasing matters, by an explicit
heap of addresses.
-/

namespace EnergyContracts

/-- Splits a character list on a separator character, keeping empty
segments, exactly as the JavaScript String.split method does for a
one-character separator. -/
def splitOnChar (sep : Char) : List Char → List (List Char)
  | [] => [[]]
  | c :: rest =>
      if c = sep then [] :: splitOnChar sep rest
      else (c :: (splitOnChar sep rest).headD []) :: (splitOnChar sep rest).tail

/-- Trim used by the converters: leading and trailing whitespace removed,
done on the character list (the byte-position trim of the standard library
does not reduce in the kernel). -/
def jsTrim (s : String) : String :=
  String.mk (((s.data.dropWhile Char.isWhitespace).reverse.dropWhile Char.isWhitespace).reverse)

/-- Splits a string on a one-character separator, as the JavaScript
String.split method does. -/
def jsSplit (s : String) (sep : Char) : List String :=
  (splitOnChar sep s.data).map String.mk

/-- The JavaScript String.replace method with a one-character string
pattern: only the first occurrence is replaced. Models the replace of a
comma by a dot in the converters. -/
def jsReplaceCommaChars : List Char → List Char
  | [] => []
  | c :: rest => if c = ',' then '.' :: rest else c :: jsReplaceCommaChars rest

/-- String-level wrapper for the first-comma-to-dot replacement. -/
def jsReplaceComma (s : String) : String :=
  String.mk (jsReplaceCommaChars s.data)

/-- Numeric value of a list of decimal digit characters, most significant
first, as accumulated by a decimal parser. -/
def digitsToNat (l : List Char) : Nat :=
  l.foldl (fun a c => a * 10 + (c.toNat - 48)) 0

/-- The JavaScript parseFloat builtin restricted to the decimal forms the
converters feed it: optional leading whitespace, optional sign, digits,
optional dot and fraction digits; the longest such prefix is taken and the
rest of the string is ignored; none models NaN (no numeric prefix at all).
The parsed value is kept exactly, as a signed mantissa together with a
decimal exponent: the value is mantissa divided by 10 to the exponent.
Exponent notation never occurs in the tariff files and is not modelled. -/
def jsParseFloat (s : String) : Option (ℤ × ℕ) :=
  let cs := s.data.dropWhile (fun c => c = ' ' ∨ c = '\t' ∨ c = '\n' ∨ c = '\r')
  let signAndRest : ℤ × List Char :=
    match cs with
    | '-' :: rest => (-1, rest)
    | '+' :: rest => (1, rest)
    | l => (1, l)
  let sign := signAndRest.1
  let cs2 := signAndRest.2
  let intPart := cs2.takeWhile Char.isDigit
  let afterInt := cs2.dropWhile Char.isDigit
  match afterInt with
  | '.' :: rest =>
      let frac := rest.takeWhile Char.isDigit
      if intPart.isEmpty ∧ frac.isEmpty then none
      else some (sign * (digitsToNat (intPart ++ frac) : ℤ), frac.length)
  | _ =>
      if intPart.isEmpty then none
      else some (sign * (digitsToNat intPart : ℤ), 0)

/-- Exact rational value of a parsed decimal. -/
def parsedToRat (p : ℤ × ℕ) : ℚ := (p.1 : ℚ) / ((10 : ℚ) ^ p.2)

/-- The JavaScript Math.round builtin on an exact rational: the floor of
the value plus one half, which rounds ties toward positive infinity. -/
def jsRound (q : ℚ) : ℤ := ⌊q + 1 / 2⌋

/-- Integer form of Math.round applied to the fraction num over den: the
floor of num over den plus one half, computed with integer division. -/
def jsRoundFrac (num : ℤ) (den : ℕ) : ℤ := (2 * num + den) / (2 * (den : ℤ))

/-- Price conversion shared by the tabular converters: replace the first
comma by a dot, parse, scale by 10000 and round; none models NaN. -/
def convertPrice (s : String) : Option ℤ :=
  (jsParseFloat (jsReplaceComma s)).map (fun p => jsRoundFrac (p.1 * 10000) (10 ^ p.2))

/-- Subscription price conversion shared by the tabular converters: the
yearly amount is divided by 12 before scaling by 10000 and rounding. -/
def convertSubscriptionPrice (s : String) : Option ℤ :=
  (jsParseFloat (jsReplaceComma s)).map (fun p => jsRoundFrac (p.1 * 10000) (10 ^ p.2 * 12))

/-- Decidable equality for Except values, used to settle concrete runs of
the converters by evaluation. -/
instance exceptDecEq {ε α : Type} [DecidableEq ε] [DecidableEq α] :
    DecidableEq (Except ε α) := fun a b =>
  match a, b with
  | .error e, .error f =>
      if h : e = f then isTrue (by rw [h]) else isFalse (by simp [h])
  | .error _, .ok _ => isFalse (by simp)
  | .ok _, .error _ => isFalse (by simp)
  | .ok x, .ok y =>
      if h : x = y then isTrue (by rw [h]) else isFalse (by simp [h])

/-- The JavaScript padStart method with target length 2 and pad "0". -/
def padStart2 (s : String) : String :=
  if s.length ≥ 2 then s
  else if s.length = 1 then "0" ++ s
  else "00"

/-- Rendering of a possibly-undefined value inside a template literal:
undefined prints as the text "undefined". -/
def jsTemplateOpt : Option String → String
  | some s => s
  | none => "undefined"

/-- The date-conversion function shared by the tabular converters, from
convertToIsoDate in the source: an empty (falsy) date gives null; otherwise
the string is split on the slash and reassembled as year-month-day. When
the split yields a single segment, month is undefined and the call of
padStart on it throws a TypeError, modelled as the error case. -/
def convertToIsoDate (dateStr : String) : Except String (Option String) :=
  if dateStr = "" then .ok none
  else
    let parts := jsSplit dateStr '/'
    match parts.get? 1 with
    | none => .error "TypeError"
    | some month =>
        let day := parts.headD ""
        let year := parts.get? 2
        .ok (some (jsTemplateOpt year ++ "-" ++ padStart2 month ++ "-" ++ padStart2 day))

/-- Canonical price record, the object shape every converter emits. Field
values are typed as in the source objects; price is an integer or NaN
(none), and nullable string fields are options. -/
structure PriceRecord where
  contract : String
  price_type : String
  currency : String
  start_date : Option String
  end_date : Option String
  price : Option ℤ
  hour_slots : Option String
  day_type : Option String
deriving DecidableEq, Repr

/-- Reads a column of a split row: an index past the end of the row reads
the undefined value, which every row-level use treats like the empty
string (both are falsy and neither is ever used unguarded). -/
def getCol (cols : List String) (i : ℕ) : String := (cols.get? i).getD ""

/-- The JavaScript Array.indexOf method on the header list: the index of
the first occurrence, or none in place of the minus-one sentinel. -/
def jsIndexOf : List String → String → Option ℕ
  | [], _ => none
  | y :: rest, x => if y = x then some 0 else (jsIndexOf rest x).map (· + 1)

/-- The lines of a tabular input: the content is trimmed and split on the
newline character, as in every tabular converter. -/
def csvLines (content : String) : List String := jsSplit (jsTrim content) '\n'

/-- The header names of a tabular input: the first line split on the
semicolon, each name trimmed. -/
def csvHeaders (content : String) : List String :=
  (jsSplit ((csvLines content).headD "") ';').map jsTrim

/-- Appends a group of records under a power-level key, creating the key
at the end when absent: models result[power] initialization followed by
push in the converters. -/
def pushGroup : List (String × List PriceRecord) → String → List PriceRecord →
    List (String × List PriceRecord)
  | [], power, group => [(power, group)]
  | (k, v) :: rest, power, group =>
      if k = power then (k, v ++ group) :: rest
      else (k, v) :: pushGroup rest power group

/-- The data-row loop shared by the tabular converters: each line is
handed to the row parser, which either throws (aborting the whole
converter), skips the row, or yields a group of records to append under
the row's power level. -/
def processRows (parseRow : String → Except String (Option (String × List PriceRecord))) :
    List (String × List PriceRecord) → List String →
    Except String (List (String × List PriceRecord))
  | m, [] => .ok m
  | m, line :: rest =>
      match parseRow line with
      | .error e => .error e
      | .ok none => processRows parseRow m rest
      | .ok (some (power, group)) => processRows parseRow (pushGroup m power group) rest

/-- Column indices of the flat-rate converter, found in the header line. -/
structure FlatIdx where
  dateDebut : ℕ
  dateFin : ℕ
  pSouscrite : ℕ
  partVariable : ℕ
  partFixe : ℕ
deriving Repr

/-- One data row of the flat-rate converter: trims the line, skips empty
lines and rows with missing data, converts prices and dates, and emits one
consumption and one subscription record with contract base. -/
def flatParseRow (idx : FlatIdx) (rawLine : String) :
    Except String (Option (String × List PriceRecord)) :=
  let line := jsTrim rawLine
  if line = "" then .ok none
  else
    let columns := jsSplit line ';'
    let subscribedPower := getCol columns idx.pSouscrite
    let startDate := getCol columns idx.dateDebut
    let endDate := getCol columns idx.dateFin
    let priceStr := getCol columns idx.partVariable
    let subscriptionPriceStr := getCol columns idx.partFixe
    if subscribedPower = "" ∨ startDate = "" ∨ priceStr = "" ∨ subscriptionPriceStr = "" then
      .ok none
    else
      match convertToIsoDate startDate with
      | .error e => .error e
      | .ok startDateIso =>
          match (if endDate = "" then Except.ok none else convertToIsoDate endDate) with
          | .error e => .error e
          | .ok endDateIso =>
              .ok (some (subscribedPower,
                [{ contract := "base", price_type := "consumption", currency := "euro",
                   start_date := startDateIso, end_date := endDateIso,
                   price := convertPrice priceStr,
                   hour_slots := none, day_type := none },
                 { contract := "base", price_type := "subscription", currency := "euro",
                   start_date := startDateIso, end_date := endDateIso,
                   price := convertSubscriptionPrice subscriptionPriceStr,
                   hour_slots := none, day_type := none }]))

/-- The flat-rate converter processBaseOptions over the text of
Option_Base.csv: aborts when a required header is missing, then folds the
data rows. -/
def processBaseOptions (content : String) :
    Except String (List (String × List PriceRecord)) :=
  let headers := csvHeaders content
  let dateDebutIndex := jsIndexOf headers "DATE_DEBUT"
  let dateFinIndex := jsIndexOf headers "DATE_FIN"
  let pSouscriteIndex := jsIndexOf headers "P_SOUSCRITE"
  let partVariableTtcIndex := jsIndexOf headers "PART_VARIABLE_TTC"
  let partFixeTtcIndex := jsIndexOf headers "PART_FIXE_TTC"
  if dateDebutIndex = none ∨ dateFinIndex = none ∨ pSouscriteIndex = none ∨
      partVariableTtcIndex = none ∨ partFixeTtcIndex = none then
    .error "Required columns not found in CSV"
  else
    processRows (flatParseRow
      { dateDebut := dateDebutIndex.getD 0, dateFin := dateFinIndex.getD 0,
        pSouscrite := pSouscriteIndex.getD 0, partVariable := partVariableTtcIndex.getD 0,
        partFixe := partFixeTtcIndex.getD 0 }) [] (csvLines content).tail

/-- Column indices of the dual-rate converter, found in the header line. -/
structure HphcIdx where
  dateDebut : ℕ
  dateFin : ℕ
  pSouscrite : ℕ
  partVariableHc : ℕ
  partVariableHp : ℕ
  partFixe : ℕ
deriving Repr

/-- One data row of the dual-rate converter: emits an off-peak and a peak
consumption record carrying the placeholder tokens, and one subscription
record, all with contract peak-off-peak. -/
def peakOffPeakParseRow (idx : HphcIdx) (rawLine : String) :
    Except String (Option (String × List PriceRecord)) :=
  let line := jsTrim rawLine
  if line = "" then .ok none
  else
    let columns := jsSplit line ';'
    let subscribedPower := getCol columns idx.pSouscrite
    let startDate := getCol columns idx.dateDebut
    let endDate := getCol columns idx.dateFin
    let offPeakPriceStr := getCol columns idx.partVariableHc
    let peakPriceStr := getCol columns idx.partVariableHp
    let subscriptionPriceStr := getCol columns idx.partFixe
    if subscribedPower = "" ∨ startDate = "" ∨ offPeakPriceStr = "" ∨ peakPriceStr = "" ∨
        subscriptionPriceStr = "" then
      .ok none
    else
      match convertToIsoDate startDate with
      | .error e => .error e
      | .ok startDateIso =>
          match (if endDate = "" then Except.ok none else convertToIsoDate endDate) with
          | .error e => .error e
          | .ok endDateIso =>
              .ok (some (subscribedPower,
                [{ contract := "peak-off-peak", price_type := "consumption", currency := "euro",
                   start_date := startDateIso, end_date := endDateIso,
                   price := convertPrice offPeakPriceStr,
                   hour_slots := some "TO_REPLACE_OFF_PEAK", day_type := none },
                 { contract := "peak-off-peak", price_type := "consumption", currency := "euro",
                   start_date := startDateIso, end_date := endDateIso,
                   price := convertPrice peakPriceStr,
                   hour_slots := some "TO_REPLACE_PEAK", day_type := none },
                 { contract := "peak-off-peak", price_type := "subscription", currency := "euro",
                   start_date := startDateIso, end_date := endDateIso,
                   price := convertSubscriptionPrice subscriptionPriceStr,
                   hour_slots := none, day_type := none }]))

/-- The dual-rate converter processPeakOffPeakOptions over the text of
Option_HPHC.csv. -/
def processPeakOffPeakOptions (content : String) :
    Except String (List (String × List PriceRecord)) :=
  let headers := csvHeaders content
  let dateDebutIndex := jsIndexOf headers "DATE_DEBUT"
  let dateFinIndex := jsIndexOf headers "DATE_FIN"
  let pSouscriteIndex := jsIndexOf headers "P_SOUSCRITE"
  let partVariableHcTtcIndex := jsIndexOf headers "PART_VARIABLE_HC_TTC"
  let partVariableHpTtcIndex := jsIndexOf headers "PART_VARIABLE_HP_TTC"
  let partFixeTtcIndex := jsIndexOf headers "PART_FIXE_TTC"
  if dateDebutIndex = none ∨ dateFinIndex = none ∨ pSouscriteIndex = none ∨
      partVariableHcTtcIndex = none ∨ partVariableHpTtcIndex = none ∨
      partFixeTtcIndex = none then
    .error "Required columns not found in CSV"
  else
    processRows (peakOffPeakParseRow
      { dateDebut := dateDebutIndex.getD 0, dateFin := dateFinIndex.getD 0,
        pSouscrite := pSouscriteIndex.getD 0, partVariableHc := partVariableHcTtcIndex.getD 0,
        partVariableHp := partVariableHpTtcIndex.getD 0,
        partFixe := partFixeTtcIndex.getD 0 }) [] (csvLines content).tail

/-- The hard-coded off-peak half-hour markers of the calendar-tiered
converter, copied verbatim from the source constant. -/
def offPeakSlots : String :=
  "00:00,00:30,01:00,01:30,02:00,02:30,03:00,03:30,04:00,04:30,05:00,05:30,22:00,22:30,23:00,23:30"

/-- The hard-coded peak half-hour markers of the calendar-tiered
converter, copied verbatim from the source constant. -/
def peakSlots : String :=
  "06:00,06:30,07:00,07:30,08:00,08:30,09:00,09:30,10:00,10:30,11:00,11:30,12:00,12:30,13:00,13:30,14:00,14:30,15:00,15:30,16:00,16:30,17:00,17:30,18:00,18:30,19:00,19:30,20:00,20:30,21:00,21:30"

/-- Column indices of the calendar-tiered converter, found in the header
line. -/
structure TempoIdx where
  dateDebut : ℕ
  dateFin : ℕ
  pSouscrite : ℕ
  partVariableHcBleu : ℕ
  partVariableHpBleu : ℕ
  partVariableHcBlanc : ℕ
  partVariableHpBlanc : ℕ
  partVariableHcRouge : ℕ
  partVariableHpRouge : ℕ
  partFixe : ℕ
deriving Repr

/-- One data row of the calendar-tiered converter: emits six consumption
records, one per day tier and slot kind, carrying the fixed slot strings
and contract tempo, plus one subscription record with contract es-tempo. -/
def tempoParseRow (idx : TempoIdx) (rawLine : String) :
    Except String (Option (String × List PriceRecord)) :=
  let line := jsTrim rawLine
  if line = "" then .ok none
  else
    let columns := jsSplit line ';'
    let subscribedPower := getCol columns idx.pSouscrite
    let startDate := getCol columns idx.dateDebut
    let endDate := getCol columns idx.dateFin
    let blueOffPeakStr := getCol columns idx.partVariableHcBleu
    let bluePeakStr := getCol columns idx.partVariableHpBleu
    let whiteOffPeakStr := getCol columns idx.partVariableHcBlanc
    let whitePeakStr := getCol columns idx.partVariableHpBlanc
    let redOffPeakStr := getCol columns idx.partVariableHcRouge
    let redPeakStr := getCol columns idx.partVariableHpRouge
    let subscriptionPriceStr := getCol columns idx.partFixe
    if subscribedPower = "" ∨ startDate = "" ∨ blueOffPeakStr = "" ∨ bluePeakStr = "" ∨
        whiteOffPeakStr = "" ∨ whitePeakStr = "" ∨ redOffPeakStr = "" ∨ redPeakStr = "" ∨
        subscriptionPriceStr = "" then
      .ok none
    else
      match convertToIsoDate startDate with
      | .error e => .error e
      | .ok startDateIso =>
          match (if endDate = "" then Except.ok none else convertToIsoDate endDate) with
          | .error e => .error e
          | .ok endDateIso =>
              .ok (some (subscribedPower,
                [{ contract := "tempo", price_type := "consumption", currency := "euro",
                   start_date := startDateIso, end_date := endDateIso,
                   price := convertPrice blueOffPeakStr,
                   hour_slots := some offPeakSlots, day_type := some "blue" },
                 { contract := "tempo", price_type := "consumption", currency := "euro",
                   start_date := startDateIso, end_date := endDateIso,
                   price := convertPrice bluePeakStr,
                   hour_slots := some peakSlots, day_type := some "blue" },
                 { contract := "tempo", price_type := "consumption", currency := "euro",
                   start_date := startDateIso, end_date := endDateIso,
                   price := convertPrice whiteOffPeakStr,
                   hour_slots := some offPeakSlots, day_type := some "white" },
                 { contract := "tempo", price_type := "consumption", currency := "euro",
                   start_date := startDateIso, end_date := endDateIso,
                   price := convertPrice whitePeakStr,
                   hour_slots := some peakSlots, day_type := some "white" },
                 { contract := "tempo", price_type := "consumption", currency := "euro",
                   start_date := startDateIso, end_date := endDateIso,
                   price := convertPrice redOffPeakStr,
                   hour_slots := some offPeakSlots, day_type := some "red" },
                 { contract := "tempo", price_type := "consumption", currency := "euro",
                   start_date := startDateIso, end_date := endDateIso,
                   price := convertPrice redPeakStr,
                   hour_slots := some peakSlots, day_type := some "red" },
                 { contract := "es-tempo", price_type := "subscription", currency := "euro",
                   start_date := startDateIso, end_date := endDateIso,
                   price := convertSubscriptionPrice subscriptionPriceStr,
                   hour_slots := none, day_type := none }]))

/-- The calendar-tiered converter processTempoOptions over the text of
Option_Tempo.csv. -/
def processTempoOptions (content : String) :
    Except String (List (String × List PriceRecord)) :=
  let headers := csvHeaders content
  let dateDebutIndex := jsIndexOf headers "DATE_DEBUT"
  let dateFinIndex := jsIndexOf headers "DATE_FIN"
  let pSouscriteIndex := jsIndexOf headers "P_SOUSCRITE"
  let partVariableHcBleuTtcIndex := jsIndexOf headers "PART_VARIABLE_HCBleu_TTC"
  let partVariableHpBleuTtcIndex := jsIndexOf headers "PART_VARIABLE_HPBleu_TTC"
  let partVariableHcBlancTtcIndex := jsIndexOf headers "PART_VARIABLE_HCBlanc_TTC"
  let partVariableHpBlancTtcIndex := jsIndexOf headers "PART_VARIABLE_HPBlanc_TTC"
  let partVariableHcRougeTtcIndex := jsIndexOf headers "PART_VARIABLE_HCRouge_TTC"
  let partVariableHpRougeTtcIndex := jsIndexOf headers "PART_VARIABLE_HPRouge_TTC"
  let partFixeTtcIndex := jsIndexOf headers "PART_FIXE_TTC"
  if dateDebutIndex = none ∨ dateFinIndex = none ∨ pSouscriteIndex = none ∨
      partVariableHcBleuTtcIndex = none ∨ partVariableHpBleuTtcIndex = none ∨
      partVariableHcBlancTtcIndex = none ∨ partVariableHpBlancTtcIndex = none ∨
      partVariableHcRougeTtcIndex = none ∨ partVariableHpRougeTtcIndex = none ∨
      partFixeTtcIndex = none then
    .error "Required columns not found in CSV"
  else
    processRows (tempoParseRow
      { dateDebut := dateDebutIndex.getD 0, dateFin := dateFinIndex.getD 0,
        pSouscrite := pSouscriteIndex.getD 0,
        partVariableHcBleu := partVariableHcBleuTtcIndex.getD 0,
        partVariableHpBleu := partVariableHpBleuTtcIndex.getD 0,
        partVariableHcBlanc := partVariableHcBlancTtcIndex.getD 0,
        partVariableHpBlanc := partVariableHpBlancTtcIndex.getD 0,
        partVariableHcRouge := partVariableHcRougeTtcIndex.getD 0,
        partVariableHpRouge := partVariableHpRougeTtcIndex.getD 0,
        partFixe := partFixeTtcIndex.getD 0 }) [] (csvLines content).tail

/-- The closed contract-name enumeration of the validator, from
validatePriceObject in the test script. -/
def validContracts : List String := ["base", "peak-off-peak", "edf-tempo"]

/-- The ISO date pattern of the validator: four digits, dash, two digits,
dash, two digits, nothing else, as the anchored regular expression tests. -/
def dateRegexTest (s : String) : Bool :=
  match splitOnChar '-' s.data with
  | [y, m, d] =>
      y.length = 4 && m.length = 2 && d.length = 2 &&
      y.all Char.isDigit && m.all Char.isDigit && d.all Char.isDigit
  | _ => false

/-- String coercion of a nullable value, as JavaScript performs it when a
null field reaches the regular expression test. -/
def jsToStr (v : Option String) : String := v.getD "null"

/-- The per-record structural check validatePriceObject of the test
script. Field presence and the typeof checks hold by construction in the
typed record, so the value checks remain: contract membership, price_type,
currency, non-negative price (a NaN price is not less than zero and
passes), the start-date pattern, and the end-date pattern when the
end date is truthy. -/
def validatePriceObject (priceObj : PriceRecord) (contractType : String) :
    Except String Unit :=
  if ¬ priceObj.contract ∈ validContracts then
    .error "Invalid contract value"
  else if ¬ priceObj.price_type ∈ ["consumption", "subscription"] then
    .error "Invalid price_type"
  else if priceObj.currency ≠ "euro" then
    .error "Invalid currency"
  else if (match priceObj.price with | some v => decide (v < 0) | none => false) then
    .error "Invalid price"
  else if ¬ dateRegexTest (jsToStr priceObj.start_date) then
    .error "Invalid start_date format"
  else if (match priceObj.end_date with
           | some e => e ≠ "" && ¬ dateRegexTest e
           | none => false) then
    .error "Invalid end_date format"
  else
    .ok ()

/-- The subscription-shape loop of validateContractSpecificRequirements:
every subscription record must have null hour_slots, null day_type and a
price greater than zero (a NaN price is not less than or equal to zero and
passes). -/
def checkSubscriptionShape : List PriceRecord → Except String Unit
  | [] => .ok ()
  | p :: rest =>
      if p.hour_slots ≠ none then
        .error "Subscription price should have hour_slots = null"
      else if p.day_type ≠ none then
        .error "Subscription price should have day_type = null"
      else if (match p.price with | some v => decide (v ≤ 0) | none => false) then
        .error "Subscription price should be positive"
      else checkSubscriptionShape rest

/-- The consumption-shape loop of validateContractSpecificRequirements,
switching on the contract-type name. -/
def checkConsumptionShape (contractType : String) : List PriceRecord → Except String Unit
  | [] => .ok ()
  | p :: rest =>
      let step : Except String Unit :=
        if contractType = "edf-base" then
          if p.hour_slots ≠ none then
            .error "Base contract consumption should have hour_slots = null"
          else if p.day_type ≠ none then
            .error "Base contract consumption should have day_type = null"
          else .ok ()
        else if contractType = "edf-peak-off-peak" then
          if ¬ (p.hour_slots = some "TO_REPLACE_PEAK" ∨ p.hour_slots = some "TO_REPLACE_OFF_PEAK") then
            .error "Peak-off-peak contract consumption should have placeholder hour_slots"
          else if p.day_type ≠ none then
            .error "Peak-off-peak contract consumption should have day_type = null"
          else .ok ()
        else if contractType = "edf-tempo" then
          if ¬ (p.day_type = some "blue" ∨ p.day_type = some "white" ∨ p.day_type = some "red") then
            .error "Tempo contract consumption should have day_type blue, white or red"
          else if (match p.hour_slots with | some h => decide (h = "") | none => true) then
            .error "Tempo contract consumption should have hour_slots as non-empty string"
          else .ok ()
        else .ok ()
      match step with
      | .error e => .error e
      | .ok _ => checkConsumptionShape contractType rest

/-- The contract-specific validation of the test script: at least one
subscription record, then the subscription-shape loop, then the
consumption-shape loop. -/
def validateContractSpecificRequirements (prices : List PriceRecord)
    (contractType : String) : Except String Unit :=
  let consumptionPrices := prices.filter (fun p => p.price_type = "consumption")
  let subscriptionPrices := prices.filter (fun p => p.price_type = "subscription")
  if subscriptionPrices.length = 0 then
    .error "must have at least one subscription price"
  else
    match checkSubscriptionShape subscriptionPrices with
    | .error e => .error e
    | .ok _ => checkConsumptionShape contractType consumptionPrices

/-- The date-range key the consistency step of the test script builds for
each record: start and end dates joined by a bar, with null printed as the
text null. -/
def rangeKey (p : PriceRecord) : String :=
  jsToStr p.start_date ++ "|" ++ jsToStr p.end_date

/-- The subscription-consistency step of the test script for one power
level: every date-range key of a consumption record must occur among the
date-range keys of the subscription records. -/
def checkSubscriptionConsistency (prices : List PriceRecord) : Except String Unit :=
  let consumptionPrices := prices.filter (fun p => p.price_type = "consumption")
  let subscriptionPrices := prices.filter (fun p => p.price_type = "subscription")
  let subscriptionRanges := subscriptionPrices.map rangeKey
  match consumptionPrices.find? (fun p => !(subscriptionRanges.contains (rangeKey p))) with
  | some _ => .error "Missing subscription price for date range"
  | none => .ok ()

/-- Temporal coverage parity of one record list: every consumption record
has a subscription record with the same date-range key. -/
def parityGroup (prices : List PriceRecord) : Prop :=
  ∀ p ∈ prices, p.price_type = "consumption" →
    ∃ q ∈ prices, q.price_type = "subscription" ∧ rangeKey q = rangeKey p

/-- The fixed power-level list of the static-catalog variant that has no
subscription table, copied verbatim from the source. -/
def subscribedPowersAlpiq : List String :=
  ["3", "4", "5", "6", "7", "8", "9", "10", "11", "12", "13", "14", "15", "16", "17",
   "18", "19", "20", "21", "22", "23", "24", "25", "26", "27", "28", "29", "30", "31",
   "32", "33", "34", "35", "36"]

/-- The fixed-power-list static-catalog converter processBaseOptions of
the alpiq base contract, at the level of record values: every power level
of the fixed list is bound to a list of spread copies of the parsed
contract.json entries; a spread copy has the same field values as its
source entry. -/
def processBaseOptionsAlpiq (contractData : List PriceRecord) :
    List (String × List PriceRecord) :=
  subscribedPowersAlpiq.map (fun power => (power, contractData.map (fun priceEntry => priceEntry)))

/-- Heap of price-record objects: a fresh-address counter and a store.
Models JavaScript object identity for the static-catalog converter, where
the claim is about mutation of one copy not affecting another. -/
structure Heap where
  next : ℕ
  store : List (ℕ × PriceRecord)

/-- Reads the record at an address. -/
def heapGet (h : Heap) (a : ℕ) : Option PriceRecord := h.store.lookup a

/-- Overwrites the record at an address: models mutation of the object
(assignment to the whole record or to any of its fields). -/
def heapSet (h : Heap) (a : ℕ) (r : PriceRecord) : Heap :=
  { next := h.next, store := (a, r) :: h.store }

/-- Allocates a fresh object holding the given record value. -/
def alloc (h : Heap) (r : PriceRecord) : ℕ × Heap :=
  (h.next, { next := h.next + 1, store := (h.next, r) :: h.store })

/-- The default record value an out-of-heap read produces; never reached
on the addresses the converter touches. -/
def emptyRecord : PriceRecord :=
  { contract := "", price_type := "", currency := "", start_date := none,
    end_date := none, price := none, hour_slots := none, day_type := none }

/-- The map of the subscription-table static-catalog converter over the
shared catalog: each entry is read and a fresh spread copy of it is
allocated. -/
def copyEntries : Heap → List ℕ → List ℕ × Heap
  | h, [] => ([], h)
  | h, a :: rest =>
      let r := (heapGet h a).getD emptyRecord
      let (a2, h2) := alloc h r
      let (rest2, h3) := copyEntries h2 rest
      (a2 :: rest2, h3)

/-- The forEach loop of the subscription-table static-catalog converter
processBaseOptions: for each power level of the subscription table, a
fresh copy of the whole catalog is allocated and concatenated with that
power level's subscription entries. -/
def processCatalogPowers : Heap → List ℕ → List (String × List ℕ) →
    List (String × List ℕ) × Heap
  | h, _, [] => ([], h)
  | h, catalog, (power, subs) :: rest =>
      let (copies, h2) := copyEntries h catalog
      let (tailRes, h3) := processCatalogPowers h2 catalog rest
      ((power, copies ++ subs) :: tailRes, h3)

/-- Rounding to the nearest integer with ties away from zero, written
from the words of the specification for comparison with the Math.round
behaviour of the code. -/
def roundHalfAwayFromZero (q : ℚ) : ℤ :=
  if 0 ≤ q then ⌊q + 1 / 2⌋ else -⌊-q + 1 / 2⌋

/-- The price conversion as the specification words it: parse the
normalized string and round the scaled value half away from zero. -/
def convertPriceSpec (s : String) : Option ℤ :=
  (jsParseFloat (jsReplaceComma s)).map (fun p => roundHalfAwayFromZero (parsedToRat p * 10000))

/-- Two-digit decimal rendering of a number below one hundred. -/
def twoDigit (n : ℕ) : String :=
  String.mk [Char.ofNat (48 + n / 10), Char.ofNat (48 + n % 10)]

/-- The i-th half-hour mark of the day, for i from 0 (00:00) to 47
(23:30); used to state which marks the hard-coded slot strings cover. -/
def halfHourMark (i : ℕ) : String :=
  twoDigit (i / 2) ++ (if i % 2 = 0 then ":00" else ":30")

/-- Modelled from the spec: the contract.json fixture of the
fixed-power-list static-catalog converter is not under src; the
specification describes it as a list of consumption price entries, so its
entries never carry the subscription price type. -/
def alpiqCatalogConsumptionOnly (contractData : List PriceRecord) : Prop :=
  ∀ e ∈ contractData, e.price_type ≠ "subscription"

/-- Input of the end-to-end dual-rate scenario: one header line and one
complete data row. -/
def hphcCsvC3 : String :=
  "DATE_DEBUT;DATE_FIN;P_SOUSCRITE;PART_VARIABLE_HC_TTC;PART_VARIABLE_HP_TTC;PART_FIXE_TTC\n01/01/2023;;6;0,1234;0,2345;120,00"

/-- Input of the tempo contract-name check: one header line with the ten
required columns and one complete data row. -/
def tempoCsvC1 : String :=
  "DATE_DEBUT;DATE_FIN;P_SOUSCRITE;PART_VARIABLE_HCBleu_TTC;PART_VARIABLE_HPBleu_TTC;PART_VARIABLE_HCBlanc_TTC;PART_VARIABLE_HPBlanc_TTC;PART_VARIABLE_HCRouge_TTC;PART_VARIABLE_HPRouge_TTC;PART_FIXE_TTC\n01/01/2023;;6;0,1;0,2;0,3;0,4;0,5;0,6;120,00"

/-- The seven records the calendar-tiered converter emits for the data
row of tempoCsvC1. -/
def tempoRecordsC1 : List PriceRecord :=
  [{ contract := "tempo", price_type := "consumption", currency := "euro",
     start_date := some "2023-01-01", end_date := none, price := some 1000,
     hour_slots := some offPeakSlots, day_type := some "blue" },
   { contract := "tempo", price_type := "consumption", currency := "euro",
     start_date := some "2023-01-01", end_date := none, price := some 2000,
     hour_slots := some peakSlots, day_type := some "blue" },
   { contract := "tempo", price_type := "consumption", currency := "euro",
     start_date := some "2023-01-01", end_date := none, price := some 3000,
     hour_slots := some offPeakSlots, day_type := some "white" },
   { contract := "tempo", price_type := "consumption", currency := "euro",
     start_date := some "2023-01-01", end_date := none, price := some 4000,
     hour_slots := some peakSlots, day_type := some "white" },
   { contract := "tempo", price_type := "consumption", currency := "euro",
     start_date := some "2023-01-01", end_date := none, price := some 5000,
     hour_slots := some offPeakSlots, day_type := some "red" },
   { contract := "tempo", price_type := "consumption", currency := "euro",
     start_date := some "2023-01-01", end_date := none, price := some 6000,
     hour_slots := some peakSlots, day_type := some "red" },
   { contract := "es-tempo", price_type := "subscription", currency := "euro",
     start_date := some "2023-01-01", end_date := none, price := some 100000,
     hour_slots := none, day_type := none }]

/-- A consumption record with price exactly zero, in every other respect
well formed. -/
def zeroConsumptionRecord : PriceRecord :=
  { contract := "base", price_type := "consumption", currency := "euro",
    start_date := some "2023-01-01", end_date := none, price := some 0,
    hour_slots := none, day_type := none }

/-- A consumption record with a negative price. -/
def negativeConsumptionRecord : PriceRecord :=
  { contract := "base", price_type := "consumption", currency := "euro",
    start_date := some "2023-01-01", end_date := none, price := some (-1),
    hour_slots := none, day_type := none }

/-- A subscription record with price exactly zero. -/
def zeroSubscriptionRecord : PriceRecord :=
  { contract := "base", price_type := "subscription", currency := "euro",
    start_date := some "2023-01-01", end_date := none, price := some 0,
    hour_slots := none, day_type := none }

/-- A subscription record with a positive price and the same date range
as the zero-price consumption record. -/
def positiveSubscriptionRecord : PriceRecord :=
  { contract := "base", price_type := "subscription", currency := "euro",
    start_date := some "2023-01-01", end_date := none, price := some 1,
    hour_slots := none, day_type := none }

/-- A complete flat-rate input with one data row, used to witness
coverage parity on a concrete run. -/
def flatCsvW : String :=
  "DATE_DEBUT;DATE_FIN;P_SOUSCRITE;PART_VARIABLE_TTC;PART_FIXE_TTC\n01/01/2023;;6;0,5;120,00"

/-- The records the flat-rate converter emits for the data row of
flatCsvW. -/
def flatRecordsW : List PriceRecord :=
  [{ contract := "base", price_type := "consumption", currency := "euro",
     start_date := some "2023-01-01", end_date := none, price := some 5000,
     hour_slots := none, day_type := none },
   { contract := "base", price_type := "subscription", currency := "euro",
     start_date := some "2023-01-01", end_date := none, price := some 100000,
     hour_slots := none, day_type := none }]

/-- A tabular input whose header line lacks the PART_FIXE_TTC column. -/
def baseCsvMissingFixe : String :=
  "DATE_DEBUT;DATE_FIN;P_SOUSCRITE;PART_VARIABLE_TTC\n01/01/2023;;6;0,1"

/-- Column indices for a calendar-tiered input whose header lists the
ten columns in source order. -/
def tempoIdxW : TempoIdx :=
  { dateDebut := 0, dateFin := 1, pSouscrite := 2,
    partVariableHcBleu := 3, partVariableHpBleu := 4,
    partVariableHcBlanc := 5, partVariableHpBlanc := 6,
    partVariableHcRouge := 7, partVariableHpRouge := 8, partFixe := 9 }

/-- A calendar-tiered data row with every required field filled and a
well-formed start date. -/
def tempoLineW : String := "01/01/2023;;6;0,1;0,2;0,3;0,4;0,5;0,6;120,00"

/-- A calendar-tiered data row with every required field filled whose
start date lacks the slash separators. -/
def tempoLineBadW : String := "20230101;;6;0,1;0,2;0,3;0,4;0,5;0,6;120,00"

/-- A consumption catalog entry for the fixed-power-list converter. -/
def alpiqCatalogEntryW : PriceRecord :=
  { contract := "base", price_type := "consumption", currency := "euro",
    start_date := some "2023-01-01", end_date := none, price := some 2000,
    hour_slots := none, day_type := none }

/-- A concrete heap for the catalog-copy witness: one catalog entry at
address 0 and one subscription entry at address 1. -/
def heapW : Heap :=
  Heap.mk 2 [(0, alpiqCatalogEntryW), (1, positiveSubscriptionRecord)]

/-- A concrete subscription table with two power levels sharing the
subscription entry at address 1. -/
def subsW : List (String × List ℕ) := [("6", [1]), ("9", [1])]

/-! Theorems: the split, rounding and conversion lemmas, then the helper
lemmas about the row fold and the validator, then the claim theorems. -/

/-- A split result is never the empty list. -/
theorem splitOnChar_ne_nil (sep : Char) (l : List Char) : splitOnChar sep l ≠ [] := by
  cases l with
  | nil => simp [splitOnChar]
  | cons c rest =>
      simp only [splitOnChar]
      split <;> simp

/-- If the separator does not occur, the split is the one-segment list. -/
theorem splitOnChar_of_not_mem (sep : Char) (l : List Char) (h : sep ∉ l) :
    splitOnChar sep l = [l] := by
  induction l with
  | nil => rfl
  | cons c rest ih =>
      simp only [List.mem_cons, not_or] at h
      have hcs : ¬ c = sep := fun hc => h.1 hc.symm
      rw [splitOnChar, if_neg hcs, ih h.2]
      rfl

/-- If the separator occurs, the split has at least two segments. -/
theorem two_le_splitOnChar_length (sep : Char) (l : List Char) (h : sep ∈ l) :
    2 ≤ (splitOnChar sep l).length := by
  induction l with
  | nil => cases h
  | cons c rest ih =>
      by_cases hc : c = sep
      · have hne := splitOnChar_ne_nil sep rest
        rw [splitOnChar, if_pos hc]
        have : 0 < (splitOnChar sep rest).length := List.length_pos.mpr hne
        simp only [List.length_cons]
        omega
      · have hmem : sep ∈ rest := by
          rcases List.mem_cons.mp h with h1 | h1
          · exact absurd h1.symm hc
          · exact h1
        have h2 := ih hmem
        rw [splitOnChar, if_neg hc]
        simp only [List.length_cons, List.length_tail]
        omega

/-- The integer form of rounding agrees with Math.round on the exact
rational value of the fraction. -/
theorem jsRoundFrac_eq (num : ℤ) (den : ℕ) (h : 0 < den) :
    jsRoundFrac num den = jsRound ((num : ℚ) / (den : ℚ)) := by
  have hden : ((den : ℚ)) ≠ 0 := by positivity
  have key : (num : ℚ) / (den : ℚ) + 1 / 2 = ((2 * num + den : ℤ) : ℚ) / ((2 * den : ℕ) : ℚ) := by
    push_cast
    field_simp
    ring
  rw [jsRound, key, Rat.floor_intCast_div_natCast]
  rw [jsRoundFrac]
  push_cast
  rfl

/-- The price conversion is Math.round applied to the exact parsed value
scaled by 10000. -/
theorem convertPrice_eq_round (s : String) (p : ℤ × ℕ)
    (h : jsParseFloat (jsReplaceComma s) = some p) :
    convertPrice s = some (jsRound (parsedToRat p * 10000)) := by
  rw [convertPrice, h, Option.map_some']
  congr 1
  rw [jsRoundFrac_eq _ _ (by positivity), parsedToRat]
  congr 1
  push_cast
  field_simp

/-- The subscription conversion is Math.round applied to the exact parsed
value divided by 12 and scaled by 10000. -/
theorem convertSubscriptionPrice_eq_round (s : String) (p : ℤ × ℕ)
    (h : jsParseFloat (jsReplaceComma s) = some p) :
    convertSubscriptionPrice s = some (jsRound (parsedToRat p / 12 * 10000)) := by
  rw [convertSubscriptionPrice, h, Option.map_some']
  congr 1
  rw [jsRoundFrac_eq _ _ (by positivity), parsedToRat]
  congr 1
  push_cast
  field_simp

/-- A header name that is absent from the list has no index. -/
theorem jsIndexOf_eq_none (l : List String) (x : String) (h : x ∉ l) :
    jsIndexOf l x = none := by
  induction l with
  | nil => rfl
  | cons y rest ih =>
      simp only [List.mem_cons, not_or] at h
      rw [jsIndexOf, if_neg (fun hy => h.1 hy.symm), ih h.2]
      rfl

/-- A lookup in a map binding every key to the same value can only yield
that value. -/
theorem lookup_map_const (v : List PriceRecord) (keys : List String) (k : String)
    (lst : List PriceRecord)
    (h : (keys.map (fun power => (power, v))).lookup k = some lst) : lst = v := by
  induction keys with
  | nil => cases h
  | cons y rest ih =>
      rw [List.map_cons, List.lookup] at h
      split at h
      · exact (Option.some.inj h).symm
      · exact ih h

/-- Lookup after pushGroup: the pushed key now holds its old records
followed by the group, every other key is untouched. -/
theorem lookup_pushGroup (m : List (String × List PriceRecord)) (power p : String)
    (group : List PriceRecord) :
    (pushGroup m power group).lookup p =
      if p = power then some (((m.lookup power).getD []) ++ group) else m.lookup p := by
  induction m with
  | nil =>
      by_cases hp : p = power
      · subst hp
        simp [pushGroup, List.lookup]
      · simp [pushGroup, List.lookup, hp, beq_false_of_ne hp]
  | cons kv rest ih =>
      obtain ⟨k, v⟩ := kv
      by_cases hk : k = power
      · subst hk
        by_cases hp : p = k
        · subst hp
          simp [pushGroup, List.lookup]
        · simp [pushGroup, List.lookup, hp, beq_false_of_ne hp]
      · rw [pushGroup, if_neg hk]
        by_cases hp : p = k
        · subst hp
          have hpk : ¬ p = power := fun hc => hk hc
          simp [List.lookup, hpk]
        · have hpk : ¬ power = k := fun hc => hk hc.symm
          simp only [List.lookup, beq_false_of_ne hp, beq_false_of_ne hpk]
          exact ih

/-- The empty list satisfies coverage parity. -/
theorem parityGroup_nil : parityGroup [] := fun p hp => absurd hp (List.not_mem_nil p)

/-- Coverage parity is preserved by concatenation. -/
theorem parityGroup_append (a b : List PriceRecord)
    (ha : parityGroup a) (hb : parityGroup b) : parityGroup (a ++ b) := by
  intro p hp hcons
  rcases List.mem_append.mp hp with h | h
  · obtain ⟨q, hq, hqs, hqr⟩ := ha p h hcons
    exact ⟨q, List.mem_append.mpr (Or.inl hq), hqs, hqr⟩
  · obtain ⟨q, hq, hqs, hqr⟩ := hb p h hcons
    exact ⟨q, List.mem_append.mpr (Or.inr hq), hqs, hqr⟩

/-- The row fold preserves coverage parity of every power level, provided
every group a row emits satisfies parity on its own. -/
theorem processRows_parity
    (f : String → Except String (Option (String × List PriceRecord)))
    (hf : ∀ line p g, f line = .ok (some (p, g)) → parityGroup g) :
    ∀ (lines : List String) (m out : List (String × List PriceRecord)),
      processRows f m lines = .ok out →
      (∀ p l, m.lookup p = some l → parityGroup l) →
      ∀ p l, out.lookup p = some l → parityGroup l := by
  intro lines
  induction lines with
  | nil =>
      intro m out h hm
      rw [processRows] at h
      cases h
      exact hm
  | cons line rest ih =>
      intro m out h hm
      rw [processRows] at h
      cases hf' : f line with
      | error e => rw [hf'] at h; cases h
      | ok o =>
          rw [hf'] at h
          cases o with
          | none => exact ih m out h hm
          | some pg =>
              obtain ⟨power, group⟩ := pg
              refine ih _ out h ?_
              intro p l hl
              rw [lookup_pushGroup] at hl
              split at hl
              · cases hl
                apply parityGroup_append
                · cases hmp : m.lookup power with
                  | none => simpa [hmp] using parityGroup_nil
                  | some l0 => simpa [hmp] using hm power l0 hmp
                · exact hf _ _ _ hf'
              · exact hm p l hl

/-- Every group the flat-rate row parser emits satisfies parity: the
subscription record shares the dates of the consumption record. -/
theorem flatParseRow_parity (idx : FlatIdx) (line : String) (p : String)
    (g : List PriceRecord) (h : flatParseRow idx line = .ok (some (p, g))) :
    parityGroup g := by
  simp only [flatParseRow] at h
  split at h
  · cases h
  · split at h
    · cases h
    · split at h
      · cases h
      · split at h
        · cases h
        · cases h
          intro r hr hcons
          simp only [List.mem_cons, List.not_mem_nil, or_false] at hr
          rcases hr with rfl | rfl <;>
            exact ⟨_, List.mem_cons_of_mem _ (List.mem_cons_self _ _), rfl, rfl⟩

/-- Every group the dual-rate row parser emits satisfies parity. -/
theorem peakOffPeakParseRow_parity (idx : HphcIdx) (line : String) (p : String)
    (g : List PriceRecord) (h : peakOffPeakParseRow idx line = .ok (some (p, g))) :
    parityGroup g := by
  simp only [peakOffPeakParseRow] at h
  split at h
  · cases h
  · split at h
    · cases h
    · split at h
      · cases h
      · split at h
        · cases h
        · cases h
          intro r hr hcons
          simp only [List.mem_cons, List.not_mem_nil, or_false] at hr
          rcases hr with rfl | rfl | rfl <;>
            exact ⟨_, List.mem_cons_of_mem _ (List.mem_cons_of_mem _ (List.mem_cons_self _ _)),
              rfl, rfl⟩

/-- Every group the calendar-tiered row parser emits satisfies parity. -/
theorem tempoParseRow_parity (idx : TempoIdx) (line : String) (p : String)
    (g : List PriceRecord) (h : tempoParseRow idx line = .ok (some (p, g))) :
    parityGroup g := by
  simp only [tempoParseRow] at h
  split at h
  · cases h
  · split at h
    · cases h
    · split at h
      · cases h
      · split at h
        · cases h
        · cases h
          intro r hr hcons
          simp only [List.mem_cons, List.not_mem_nil, or_false] at hr
          rcases hr with rfl | rfl | rfl | rfl | rfl | rfl | rfl <;>
            exact ⟨_, List.mem_cons_of_mem _ (List.mem_cons_of_mem _ (List.mem_cons_of_mem _
              (List.mem_cons_of_mem _ (List.mem_cons_of_mem _ (List.mem_cons_of_mem _
              (List.mem_cons_self _ _)))))), rfl, rfl⟩

/-- A String list contains an element exactly when the element is a
member. -/
theorem contains_iff_mem (l : List String) (a : String) : l.contains a = true ↔ a ∈ l :=
  List.elem_iff

/-- The subscription-consistency check succeeds exactly on lists
satisfying coverage parity. -/
theorem checkSubscriptionConsistency_ok_iff (prices : List PriceRecord) :
    checkSubscriptionConsistency prices = .ok () ↔ parityGroup prices := by
  rw [checkSubscriptionConsistency]
  constructor
  · intro hok
    cases hfind : (prices.filter (fun p => p.price_type = "consumption")).find?
        (fun p => !(((prices.filter (fun p => p.price_type = "subscription")).map
          rangeKey).contains (rangeKey p))) with
    | some bad => rw [hfind] at hok; simp at hok
    | none =>
        rw [List.find?_eq_none] at hfind
        intro p hp hcons
        have hpf : p ∈ prices.filter (fun p => p.price_type = "consumption") :=
          List.mem_filter.mpr ⟨hp, by simp [hcons]⟩
        have hc := hfind p hpf
        simp only [Bool.not_eq_true, Bool.not_eq_false'] at hc
        have hmem := (contains_iff_mem _ _).mp hc
        obtain ⟨q, hq, hqk⟩ := List.mem_map.mp hmem
        have hq2 := List.mem_filter.mp hq
        refine ⟨q, hq2.1, by simpa using hq2.2, hqk⟩
  · intro hpar
    have hfind : (prices.filter (fun p => p.price_type = "consumption")).find?
        (fun p => !(((prices.filter (fun p => p.price_type = "subscription")).map
          rangeKey).contains (rangeKey p))) = none := by
      rw [List.find?_eq_none]
      intro x hx
      have hx2 := List.mem_filter.mp hx
      obtain ⟨q, hq, hqs, hqr⟩ := hpar x hx2.1 (by simpa using hx2.2)
      simp only [Bool.not_eq_true, Bool.not_eq_false']
      exact (contains_iff_mem _ _).mpr
        (List.mem_map.mpr ⟨q, List.mem_filter.mpr ⟨hq, by simp [hqs]⟩, hqr⟩)
    rw [hfind]

/-- The subscription-consistency check has exactly two outcomes: success
or the missing-subscription error. -/
theorem checkSubscriptionConsistency_cases (prices : List PriceRecord) :
    checkSubscriptionConsistency prices = .ok () ∨
    checkSubscriptionConsistency prices = .error "Missing subscription price for date range" := by
  rw [checkSubscriptionConsistency]
  cases (prices.filter (fun p => p.price_type = "consumption")).find?
      (fun p => !(((prices.filter (fun p => p.price_type = "subscription")).map
        rangeKey).contains (rangeKey p))) with
  | none => exact Or.inl rfl
  | some bad => exact Or.inr rfl

/-- Lookup at the head key of an association list. -/
theorem lookup_cons_pos {β : Type} (k : String) (v : β) (rest : List (String × β))
    (p : String) (hp : p = k) : ((k, v) :: rest).lookup p = some v := by
  subst hp
  simp

/-- Lookup skipping a head entry with a different key. -/
theorem lookup_cons_neg {β : Type} (k : String) (v : β) (rest : List (String × β))
    (p : String) (hp : ¬ p = k) : ((k, v) :: rest).lookup p = rest.lookup p := by
  simp [List.lookup, beq_false_of_ne hp]

/-- Unfolding of the catalog copy on a non-empty catalog. -/
theorem copyEntries_cons (h : Heap) (a : ℕ) (rest : List ℕ) :
    copyEntries h (a :: rest) =
      (h.next :: (copyEntries
          (Heap.mk (h.next + 1) ((h.next, (heapGet h a).getD emptyRecord) :: h.store)) rest).1,
       (copyEntries
          (Heap.mk (h.next + 1) ((h.next, (heapGet h a).getD emptyRecord) :: h.store)) rest).2) := by
  rw [copyEntries]
  rcases hr : copyEntries
      (Heap.mk (h.next + 1) ((h.next, (heapGet h a).getD emptyRecord) :: h.store)) rest
    with ⟨r2, h3⟩
  simp [alloc, hr]

/-- The catalog copy allocates one fresh address per entry: the counter
advances by the catalog length, the copy list has that length and every
copied address lies in the allocated window. -/
theorem copyEntries_spec (catalog : List ℕ) : ∀ h : Heap,
    (copyEntries h catalog).2.next = h.next + catalog.length ∧
    (copyEntries h catalog).1.length = catalog.length ∧
    ∀ a ∈ (copyEntries h catalog).1, h.next ≤ a ∧ a < h.next + catalog.length := by
  induction catalog with
  | nil => intro h; exact ⟨rfl, rfl, by simp [copyEntries]⟩
  | cons c rest ih =>
      intro h
      rw [copyEntries_cons]
      obtain ⟨hnext, hlen, hmem⟩ :=
        ih (Heap.mk (h.next + 1) ((h.next, (heapGet h c).getD emptyRecord) :: h.store))
      dsimp only at hnext hlen hmem ⊢
      refine ⟨by rw [hnext]; simp only [List.length_cons]; omega,
        by rw [List.length_cons, List.length_cons, hlen], ?_⟩
      intro a ha
      rcases List.mem_cons.mp ha with rfl | ha2
      · simp only [List.length_cons]
        omega
      · have hb := hmem a ha2
        simp only [List.length_cons]
        omega

/-- Unfolding of the forEach loop on a non-empty subscription table. -/
theorem processCatalogPowers_cons (h : Heap) (catalog : List ℕ) (power : String)
    (s : List ℕ) (rest : List (String × List ℕ)) :
    processCatalogPowers h catalog ((power, s) :: rest) =
      ((power, (copyEntries h catalog).1 ++ s) ::
        (processCatalogPowers (copyEntries h catalog).2 catalog rest).1,
       (processCatalogPowers (copyEntries h catalog).2 catalog rest).2) := by
  rw [processCatalogPowers]

/-- The forEach loop of the catalog converter only advances the
fresh-address counter. -/
theorem processCatalogPowers_next (catalog : List ℕ) :
    ∀ (subs : List (String × List ℕ)) (h : Heap),
      h.next ≤ (processCatalogPowers h catalog subs).2.next := by
  intro subs
  induction subs with
  | nil => intro h; exact le_refl _
  | cons e rest ih =>
      obtain ⟨power, s⟩ := e
      intro h
      rw [processCatalogPowers_cons]
      have h1 : h.next ≤ (copyEntries h catalog).2.next := by
        have := (copyEntries_spec catalog h).1
        omega
      exact le_trans h1 (ih (copyEntries h catalog).2)

/-- Every address in a power-level list of the catalog converter is
either a pre-existing subscription address (below the given bound) or a
fresh copy address (at or above the initial counter). -/
theorem processCatalogPowers_addrs (catalog : List ℕ) :
    ∀ (subs : List (String × List ℕ)) (h : Heap) (N : ℕ),
      (∀ e ∈ subs, ∀ a ∈ e.2, a < N) →
      ∀ p l, (processCatalogPowers h catalog subs).1.lookup p = some l →
        ∀ x ∈ l, x < N ∨ h.next ≤ x := by
  intro subs
  induction subs with
  | nil => intro h N hN p l hl; simp [processCatalogPowers] at hl
  | cons e rest ih =>
      obtain ⟨power, s⟩ := e
      intro h N hN p l hl
      rw [processCatalogPowers_cons] at hl
      dsimp only at hl
      intro x hx
      by_cases hp : p = power
      · rw [lookup_cons_pos _ _ _ _ hp] at hl
        cases hl
        rcases List.mem_append.mp hx with hx2 | hx2
        · exact Or.inr ((copyEntries_spec catalog h).2.2 x hx2).1
        · exact Or.inl (hN (power, s) (List.mem_cons_self _ _) x hx2)
      · rw [lookup_cons_neg _ _ _ _ hp] at hl
        have hrec := ih (copyEntries h catalog).2 N
          (fun e he => hN e (List.mem_cons_of_mem _ he)) p l hl x hx
        rcases hrec with h1 | h1
        · exact Or.inl h1
        · refine Or.inr (le_trans ?_ h1)
          have := (copyEntries_spec catalog h).1
          omega

/-- The consumption segment of every power-level list consists of fresh
copy addresses: each is at or above the initial counter. -/
theorem processCatalogPowers_take_lower (catalog : List ℕ) :
    ∀ (subs : List (String × List ℕ)) (h : Heap),
      ∀ p l, (processCatalogPowers h catalog subs).1.lookup p = some l →
        ∀ x ∈ l.take catalog.length, h.next ≤ x := by
  intro subs
  induction subs with
  | nil => intro h p l hl; simp [processCatalogPowers] at hl
  | cons e rest ih =>
      obtain ⟨power, s⟩ := e
      intro h p l hl
      rw [processCatalogPowers_cons] at hl
      dsimp only at hl
      intro x hx
      by_cases hp : p = power
      · rw [lookup_cons_pos _ _ _ _ hp] at hl
        cases hl
        have hlen : (copyEntries h catalog).1.length = catalog.length :=
          (copyEntries_spec catalog h).2.1
        rw [List.take_append_of_le_length (le_of_eq hlen.symm)] at hx
        have hx2 := List.mem_of_mem_take hx
        exact ((copyEntries_spec catalog h).2.2 x hx2).1
      · rw [lookup_cons_neg _ _ _ _ hp] at hl
        have hrec := ih (copyEntries h catalog).2 p l hl x hx
        refine le_trans ?_ hrec
        have := (copyEntries_spec catalog h).1
        omega

/-- Writing one address leaves every other address unchanged. -/
theorem heapGet_heapSet_ne (h : Heap) (a x : ℕ) (r : PriceRecord) (hne : x ≠ a) :
    heapGet (heapSet h a r) x = heapGet h x := by
  simp [heapGet, heapSet, List.lookup, beq_false_of_ne hne]

/-- C2, counterexample: the non-empty date string 20230101, which lacks a
slash separator, makes the date conversion throw instead of returning a
null conversion. -/
theorem claim_C2_counterexample :
    convertToIsoDate "20230101" = .error "TypeError" := by decide

/-- C2, amended: for every non-empty date string lacking a slash
separator, the date conversion used by the tabular converters throws a
TypeError (month is undefined and padStart is called on it), so the
converter, not the Validator, aborts on such dates. -/
theorem claim_C2 (s : String) (hne : s ≠ "") (hslash : '/' ∉ s.data) :
    convertToIsoDate s = .error "TypeError" := by
  have hsplit : splitOnChar '/' s.data = [s.data] := splitOnChar_of_not_mem _ _ hslash
  rw [convertToIsoDate, if_neg hne]
  simp [jsSplit, hsplit]

/-- C2, witness: the amended claim applied to the concrete slashless
date string. -/
theorem claim_C2_witness :
    ("20230101" : String) ≠ "" ∧ '/' ∉ ("20230101" : String).data ∧
    convertToIsoDate "20230101" = .error "TypeError" :=
  ⟨by decide, by decide, claim_C2 "20230101" (by decide) (by decide)⟩

set_option maxRecDepth 4000 in
/-- C3: the end-to-end dual-rate scenario: a single complete data row
with power 6, off-peak price 0,1234, peak price 0,2345, subscription
120,00, start 01/01/2023 and empty end date yields under key 6 exactly the
off-peak consumption record with price 1234, the peak consumption record
with price 2345 and the subscription record with price 100000, all dated
2023-01-01 with null end date. -/
theorem claim_C3 :
    processPeakOffPeakOptions hphcCsvC3 =
    .ok [("6",
      [{ contract := "peak-off-peak", price_type := "consumption", currency := "euro",
         start_date := some "2023-01-01", end_date := none, price := some 1234,
         hour_slots := some "TO_REPLACE_OFF_PEAK", day_type := none },
       { contract := "peak-off-peak", price_type := "consumption", currency := "euro",
         start_date := some "2023-01-01", end_date := none, price := some 2345,
         hour_slots := some "TO_REPLACE_PEAK", day_type := none },
       { contract := "peak-off-peak", price_type := "subscription", currency := "euro",
         start_date := some "2023-01-01", end_date := none, price := some 100000,
         hour_slots := none, day_type := none }])] := by decide

set_option maxRecDepth 8000 in
/-- C1: the calendar-tiered converter emits records whose contract fields
are tempo and es-tempo, neither of which belongs to the closed contract
enumeration of the validator, so the per-record validation rejects every
record of a well-formed tempo row. -/
theorem claim_C1 :
    processTempoOptions tempoCsvC1 = .ok [("6", tempoRecordsC1)] ∧
    tempoRecordsC1.map PriceRecord.contract =
      ["tempo", "tempo", "tempo", "tempo", "tempo", "tempo", "es-tempo"] ∧
    validContracts.contains "tempo" = false ∧
    validContracts.contains "es-tempo" = false ∧
    tempoRecordsC1.map (fun r => validatePriceObject r "edf-tempo") =
      [.error "Invalid contract value", .error "Invalid contract value",
       .error "Invalid contract value", .error "Invalid contract value",
       .error "Invalid contract value", .error "Invalid contract value",
       .error "Invalid contract value"] := by decide

/-- C9: the per-record check accepts a consumption record whose price is
exactly zero and rejects a negative price; a full power-level list holding
the zero-price consumption record and a positive subscription passes the
contract-specific checks, while a subscription record with price zero is
rejected by the subscription-specific positivity check. -/
theorem claim_C9 :
    validatePriceObject zeroConsumptionRecord "edf-base" = .ok () ∧
    validatePriceObject negativeConsumptionRecord "edf-base" = .error "Invalid price" ∧
    validatePriceObject zeroSubscriptionRecord "edf-base" = .ok () ∧
    validateContractSpecificRequirements [zeroConsumptionRecord, positiveSubscriptionRecord]
      "edf-base" = .ok () ∧
    validateContractSpecificRequirements [zeroConsumptionRecord, zeroSubscriptionRecord]
      "edf-base" = .error "Subscription price should be positive" := by decide

/-- C5: every tabular converter aborts with the missing-columns error,
before emitting any record, whenever one of its required headers is absent
from the header line. -/
theorem claim_C5 :
    (∀ content, ("DATE_DEBUT" ∉ csvHeaders content ∨ "DATE_FIN" ∉ csvHeaders content ∨
        "P_SOUSCRITE" ∉ csvHeaders content ∨ "PART_VARIABLE_TTC" ∉ csvHeaders content ∨
        "PART_FIXE_TTC" ∉ csvHeaders content) →
      processBaseOptions content = .error "Required columns not found in CSV") ∧
    (∀ content, ("DATE_DEBUT" ∉ csvHeaders content ∨ "DATE_FIN" ∉ csvHeaders content ∨
        "P_SOUSCRITE" ∉ csvHeaders content ∨ "PART_VARIABLE_HC_TTC" ∉ csvHeaders content ∨
        "PART_VARIABLE_HP_TTC" ∉ csvHeaders content ∨ "PART_FIXE_TTC" ∉ csvHeaders content) →
      processPeakOffPeakOptions content = .error "Required columns not found in CSV") ∧
    (∀ content, ("DATE_DEBUT" ∉ csvHeaders content ∨ "DATE_FIN" ∉ csvHeaders content ∨
        "P_SOUSCRITE" ∉ csvHeaders content ∨
        "PART_VARIABLE_HCBleu_TTC" ∉ csvHeaders content ∨
        "PART_VARIABLE_HPBleu_TTC" ∉ csvHeaders content ∨
        "PART_VARIABLE_HCBlanc_TTC" ∉ csvHeaders content ∨
        "PART_VARIABLE_HPBlanc_TTC" ∉ csvHeaders content ∨
        "PART_VARIABLE_HCRouge_TTC" ∉ csvHeaders content ∨
        "PART_VARIABLE_HPRouge_TTC" ∉ csvHeaders content ∨
        "PART_FIXE_TTC" ∉ csvHeaders content) →
      processTempoOptions content = .error "Required columns not found in CSV") := by
  refine ⟨fun content h => ?_, fun content h => ?_, fun content h => ?_⟩
  · rcases h with h | h | h | h | h <;>
      simp [processBaseOptions, jsIndexOf_eq_none _ _ h]
  · rcases h with h | h | h | h | h | h <;>
      simp [processPeakOffPeakOptions, jsIndexOf_eq_none _ _ h]
  · rcases h with h | h | h | h | h | h | h | h | h | h <;>
      simp [processTempoOptions, jsIndexOf_eq_none _ _ h]

/-- C5, witness: a tabular input missing PART_FIXE_TTC makes the
flat-rate converter raise before emitting any record. -/
theorem claim_C5_witness :
    ("PART_FIXE_TTC" ∉ csvHeaders baseCsvMissingFixe) ∧
    processBaseOptions baseCsvMissingFixe = .error "Required columns not found in CSV" :=
  ⟨by decide, claim_C5.1 baseCsvMissingFixe (Or.inr (Or.inr (Or.inr (Or.inr (by decide)))))⟩

/-- C7, counterexample: on the price string -0,00005 the code rounds the
scaled value, an exact minus one half, to zero (Math.round rounds ties
toward positive infinity), while rounding half away from zero as the
claim states would give minus one. -/
theorem claim_C7_counterexample :
    convertPrice "-0,00005" = some 0 ∧ convertPriceSpec "-0,00005" = some (-1) := by
  refine ⟨by decide, ?_⟩
  have hp : jsParseFloat (jsReplaceComma "-0,00005") = some (-5, 5) := by decide
  rw [convertPriceSpec, hp, Option.map_some']
  have hv : parsedToRat (-5, 5) * 10000 = -(1 / 2 : ℚ) := by
    rw [parsedToRat]
    norm_num
  rw [hv, roundHalfAwayFromZero, if_neg (by norm_num)]
  have h1 : (-(-(1 / 2 : ℚ)) + 1 / 2) = 1 := by norm_num
  rw [h1, Int.floor_one]

/-- C7, amended: for every price string the decimal comma is normalized
to a decimal point and the parsed value is scaled by 10000 and rounded to
the nearest integer, but ties are rounded toward positive infinity, the
behaviour of Math.round; this agrees with rounding half away from zero
exactly on the non-negative values. -/
theorem claim_C7 :
    (∀ s p, jsParseFloat (jsReplaceComma s) = some p →
        convertPrice s = some (jsRound (parsedToRat p * 10000))) ∧
    (∀ q : ℚ, |(jsRound q : ℚ) - q| ≤ 1 / 2) ∧
    (∀ k : ℤ, jsRound ((k : ℚ) + 1 / 2) = k + 1) ∧
    (∀ q : ℚ, 0 ≤ q → jsRound q = roundHalfAwayFromZero q) := by
  refine ⟨fun s p h => convertPrice_eq_round s p h, fun q => ?_, fun k => ?_, fun q hq => ?_⟩
  · rw [jsRound, abs_le]
    constructor
    · have h1 := Int.lt_floor_add_one (q + 1 / 2)
      push_cast at h1 ⊢
      linarith
    · have h2 := Int.floor_le (q + 1 / 2)
      linarith
  · rw [jsRound]
    have hk : (k : ℚ) + 1 / 2 + 1 / 2 = ((k + 1 : ℤ) : ℚ) := by push_cast; ring
    rw [hk, Int.floor_intCast]
  · rw [roundHalfAwayFromZero, if_pos hq]
    rfl

/-- C7, witness: the amended claim applied to the concrete price string
0,1234 and to the non-negative value five. -/
theorem claim_C7_witness :
    convertPrice "0,1234" = some (jsRound (parsedToRat (1234, 4) * 10000)) ∧
    jsRound (5 : ℚ) = roundHalfAwayFromZero 5 :=
  ⟨claim_C7.1 "0,1234" (1234, 4) (by decide), claim_C7.2.2.2 5 (by norm_num)⟩

/-- Every column read of the empty-string row is empty. -/
theorem getCol_jsSplit_empty (i : ℕ) : getCol (jsSplit "" ';') i = "" := by
  cases i <;> rfl

/-- A non-empty date containing a slash converts without throwing. -/
theorem convertToIsoDate_ok_of_slash (s : String) (hne : s ≠ "") (hs : '/' ∈ s.data) :
    ∃ v, convertToIsoDate s = .ok (some v) := by
  have h2 : 2 ≤ (splitOnChar '/' s.data).length := two_le_splitOnChar_length _ _ hs
  have hlen : 2 ≤ (jsSplit s '/').length := by
    rw [jsSplit, List.length_map]
    exact h2
  cases hget : (jsSplit s '/').get? 1 with
  | none =>
      rw [List.get?_eq_none] at hget
      omega
  | some month =>
      refine ⟨jsTemplateOpt ((jsSplit s '/').get? 2) ++ "-" ++ padStart2 month ++ "-" ++
        padStart2 ((jsSplit s '/').headD ""), ?_⟩
      rw [convertToIsoDate, if_neg hne]
      simp only [hget]

/-- A calendar-tiered row with all nine required fields filled, a start
date containing a slash and an end date empty or containing a slash is
accepted and yields exactly seven records: six consumption records, one
per day tier and slot kind carrying the fixed slot strings, and one
subscription record with null hour slots and day type. -/
theorem tempoParseRow_complete (idx : TempoIdx) (rawLine : String)
    (h1 : getCol (jsSplit (jsTrim rawLine) ';') idx.pSouscrite ≠ "")
    (h2 : getCol (jsSplit (jsTrim rawLine) ';') idx.dateDebut ≠ "")
    (h3 : getCol (jsSplit (jsTrim rawLine) ';') idx.partVariableHcBleu ≠ "")
    (h4 : getCol (jsSplit (jsTrim rawLine) ';') idx.partVariableHpBleu ≠ "")
    (h5 : getCol (jsSplit (jsTrim rawLine) ';') idx.partVariableHcBlanc ≠ "")
    (h6 : getCol (jsSplit (jsTrim rawLine) ';') idx.partVariableHpBlanc ≠ "")
    (h7 : getCol (jsSplit (jsTrim rawLine) ';') idx.partVariableHcRouge ≠ "")
    (h8 : getCol (jsSplit (jsTrim rawLine) ';') idx.partVariableHpRouge ≠ "")
    (h9 : getCol (jsSplit (jsTrim rawLine) ';') idx.partFixe ≠ "")
    (hslash : '/' ∈ (getCol (jsSplit (jsTrim rawLine) ';') idx.dateDebut).data)
    (hend : getCol (jsSplit (jsTrim rawLine) ';') idx.dateFin = "" ∨
      '/' ∈ (getCol (jsSplit (jsTrim rawLine) ';') idx.dateFin).data) :
    ∃ g, tempoParseRow idx rawLine =
        .ok (some (getCol (jsSplit (jsTrim rawLine) ';') idx.pSouscrite, g)) ∧
      g.length = 7 ∧
      g.map (fun r => (r.price_type, r.day_type, r.hour_slots)) =
        [("consumption", some "blue", some offPeakSlots),
         ("consumption", some "blue", some peakSlots),
         ("consumption", some "white", some offPeakSlots),
         ("consumption", some "white", some peakSlots),
         ("consumption", some "red", some offPeakSlots),
         ("consumption", some "red", some peakSlots),
         ("subscription", none, none)] := by
  have htrim : jsTrim rawLine ≠ "" := by
    intro hcontra
    rw [hcontra] at h1
    exact h1 (getCol_jsSplit_empty idx.pSouscrite)
  have hguard : ¬ (getCol (jsSplit (jsTrim rawLine) ';') idx.pSouscrite = "" ∨
      getCol (jsSplit (jsTrim rawLine) ';') idx.dateDebut = "" ∨
      getCol (jsSplit (jsTrim rawLine) ';') idx.partVariableHcBleu = "" ∨
      getCol (jsSplit (jsTrim rawLine) ';') idx.partVariableHpBleu = "" ∨
      getCol (jsSplit (jsTrim rawLine) ';') idx.partVariableHcBlanc = "" ∨
      getCol (jsSplit (jsTrim rawLine) ';') idx.partVariableHpBlanc = "" ∨
      getCol (jsSplit (jsTrim rawLine) ';') idx.partVariableHcRouge = "" ∨
      getCol (jsSplit (jsTrim rawLine) ';') idx.partVariableHpRouge = "" ∨
      getCol (jsSplit (jsTrim rawLine) ';') idx.partFixe = "") := by
    simp only [not_or]
    exact ⟨h1, h2, h3, h4, h5, h6, h7, h8, h9⟩
  obtain ⟨sv, hsv⟩ := convertToIsoDate_ok_of_slash _ h2 hslash
  have hendok : ∃ ev, (if getCol (jsSplit (jsTrim rawLine) ';') idx.dateFin = ""
      then Except.ok none
      else convertToIsoDate (getCol (jsSplit (jsTrim rawLine) ';') idx.dateFin)) =
      Except.ok (ε := String) ev := by
    rcases hend with he | he
    · exact ⟨none, by rw [if_pos he]⟩
    · have hne2 : getCol (jsSplit (jsTrim rawLine) ';') idx.dateFin ≠ "" := by
        intro hc
        rw [hc] at he
        cases he
      obtain ⟨ev, hev⟩ := convertToIsoDate_ok_of_slash _ hne2 he
      exact ⟨some ev, by rw [if_neg hne2, hev]⟩
  obtain ⟨ev, hev⟩ := hendok
  simp only [tempoParseRow, if_neg htrim, if_neg hguard, hsv, hev]
  exact ⟨_, rfl, rfl, rfl⟩

/-- A calendar-tiered row missing any of its nine required fields is
skipped and contributes no records. -/
theorem tempoParseRow_incomplete (idx : TempoIdx) (rawLine : String)
    (h : getCol (jsSplit (jsTrim rawLine) ';') idx.pSouscrite = "" ∨
      getCol (jsSplit (jsTrim rawLine) ';') idx.dateDebut = "" ∨
      getCol (jsSplit (jsTrim rawLine) ';') idx.partVariableHcBleu = "" ∨
      getCol (jsSplit (jsTrim rawLine) ';') idx.partVariableHpBleu = "" ∨
      getCol (jsSplit (jsTrim rawLine) ';') idx.partVariableHcBlanc = "" ∨
      getCol (jsSplit (jsTrim rawLine) ';') idx.partVariableHpBlanc = "" ∨
      getCol (jsSplit (jsTrim rawLine) ';') idx.partVariableHcRouge = "" ∨
      getCol (jsSplit (jsTrim rawLine) ';') idx.partVariableHpRouge = "" ∨
      getCol (jsSplit (jsTrim rawLine) ';') idx.partFixe = "") :
    tempoParseRow idx rawLine = .ok none := by
  by_cases htrim : jsTrim rawLine = ""
  · simp only [tempoParseRow, if_pos htrim]
  · simp only [tempoParseRow, if_neg htrim, if_pos h]

/-- C4, counterexample: a calendar-tiered row with all nine fields the
claim requires non-empty whose start date lacks its slash separators
makes the row parser throw a TypeError: the converter aborts and no
record at all, rather than exactly seven, is appended for the row. -/
theorem claim_C4_counterexample :
    getCol (jsSplit (jsTrim tempoLineBadW) ';') tempoIdxW.pSouscrite ≠ "" ∧
    getCol (jsSplit (jsTrim tempoLineBadW) ';') tempoIdxW.dateDebut ≠ "" ∧
    getCol (jsSplit (jsTrim tempoLineBadW) ';') tempoIdxW.partVariableHcBleu ≠ "" ∧
    getCol (jsSplit (jsTrim tempoLineBadW) ';') tempoIdxW.partVariableHpBleu ≠ "" ∧
    getCol (jsSplit (jsTrim tempoLineBadW) ';') tempoIdxW.partVariableHcBlanc ≠ "" ∧
    getCol (jsSplit (jsTrim tempoLineBadW) ';') tempoIdxW.partVariableHpBlanc ≠ "" ∧
    getCol (jsSplit (jsTrim tempoLineBadW) ';') tempoIdxW.partVariableHcRouge ≠ "" ∧
    getCol (jsSplit (jsTrim tempoLineBadW) ';') tempoIdxW.partVariableHpRouge ≠ "" ∧
    getCol (jsSplit (jsTrim tempoLineBadW) ';') tempoIdxW.partFixe ≠ "" ∧
    tempoParseRow tempoIdxW tempoLineBadW = .error "TypeError" := by decide

/-- C4, amended: a calendar-tiered row with the nine required fields
non-empty whose start date contains a slash and whose end date is empty
or contains a slash yields exactly seven records, six consumption records
carrying the two fixed slot strings across the three day tiers plus one
subscription record with null hour slots and day type, and the group is
appended to the row's power level; a row missing any required field
contributes no records; the fixed peak string lists the 32 half-hour
marks from 06:00 to 21:30 and the off-peak string the remaining 16 marks
of the day. -/
theorem claim_C4 :
    (∀ idx rawLine,
      getCol (jsSplit (jsTrim rawLine) ';') (TempoIdx.pSouscrite idx) ≠ "" →
      getCol (jsSplit (jsTrim rawLine) ';') (TempoIdx.dateDebut idx) ≠ "" →
      getCol (jsSplit (jsTrim rawLine) ';') (TempoIdx.partVariableHcBleu idx) ≠ "" →
      getCol (jsSplit (jsTrim rawLine) ';') (TempoIdx.partVariableHpBleu idx) ≠ "" →
      getCol (jsSplit (jsTrim rawLine) ';') (TempoIdx.partVariableHcBlanc idx) ≠ "" →
      getCol (jsSplit (jsTrim rawLine) ';') (TempoIdx.partVariableHpBlanc idx) ≠ "" →
      getCol (jsSplit (jsTrim rawLine) ';') (TempoIdx.partVariableHcRouge idx) ≠ "" →
      getCol (jsSplit (jsTrim rawLine) ';') (TempoIdx.partVariableHpRouge idx) ≠ "" →
      getCol (jsSplit (jsTrim rawLine) ';') (TempoIdx.partFixe idx) ≠ "" →
      '/' ∈ (getCol (jsSplit (jsTrim rawLine) ';') (TempoIdx.dateDebut idx)).data →
      (getCol (jsSplit (jsTrim rawLine) ';') (TempoIdx.dateFin idx) = "" ∨
        '/' ∈ (getCol (jsSplit (jsTrim rawLine) ';') (TempoIdx.dateFin idx)).data) →
      ∃ g, tempoParseRow idx rawLine =
          .ok (some (getCol (jsSplit (jsTrim rawLine) ';') (TempoIdx.pSouscrite idx), g)) ∧
        g.length = 7 ∧
        g.map (fun r => (r.price_type, r.day_type, r.hour_slots)) =
          [("consumption", some "blue", some offPeakSlots),
           ("consumption", some "blue", some peakSlots),
           ("consumption", some "white", some offPeakSlots),
           ("consumption", some "white", some peakSlots),
           ("consumption", some "red", some offPeakSlots),
           ("consumption", some "red", some peakSlots),
           ("subscription", none, none)]) ∧
    (∀ idx rawLine,
      (getCol (jsSplit (jsTrim rawLine) ';') (TempoIdx.pSouscrite idx) = "" ∨
        getCol (jsSplit (jsTrim rawLine) ';') (TempoIdx.dateDebut idx) = "" ∨
        getCol (jsSplit (jsTrim rawLine) ';') (TempoIdx.partVariableHcBleu idx) = "" ∨
        getCol (jsSplit (jsTrim rawLine) ';') (TempoIdx.partVariableHpBleu idx) = "" ∨
        getCol (jsSplit (jsTrim rawLine) ';') (TempoIdx.partVariableHcBlanc idx) = "" ∨
        getCol (jsSplit (jsTrim rawLine) ';') (TempoIdx.partVariableHpBlanc idx) = "" ∨
        getCol (jsSplit (jsTrim rawLine) ';') (TempoIdx.partVariableHcRouge idx) = "" ∨
        getCol (jsSplit (jsTrim rawLine) ';') (TempoIdx.partVariableHpRouge idx) = "" ∨
        getCol (jsSplit (jsTrim rawLine) ';') (TempoIdx.partFixe idx) = "") →
      tempoParseRow idx rawLine = .ok none) ∧
    (∀ m power group, (pushGroup m power group).lookup power =
      some (((m.lookup power).getD []) ++ group)) ∧
    jsSplit peakSlots ',' = (List.range 32).map (fun i => halfHourMark (i + 12)) ∧
    jsSplit offPeakSlots ',' = (List.range 12).map halfHourMark ++
      (List.range 4).map (fun i => halfHourMark (i + 44)) ∧
    (jsSplit peakSlots ',').length = 32 ∧
    (jsSplit offPeakSlots ',').length = 16 ∧
    ((List.range 48).map halfHourMark).all
      (fun mark => (jsSplit offPeakSlots ',').contains mark ||
        (jsSplit peakSlots ',').contains mark) = true ∧
    (jsSplit offPeakSlots ',').all
      (fun mark => !((jsSplit peakSlots ',').contains mark)) = true := by
  refine ⟨fun idx rawLine h1 h2 h3 h4 h5 h6 h7 h8 h9 hslash hend =>
      tempoParseRow_complete idx rawLine h1 h2 h3 h4 h5 h6 h7 h8 h9 hslash hend,
    fun idx rawLine h => tempoParseRow_incomplete idx rawLine h,
    fun m power group => by rw [lookup_pushGroup, if_pos rfl],
    by decide, by decide, by decide, by decide, by decide, by decide⟩

/-- C4, witness: the amended claim applied to a concrete complete row:
the seven records appear under the row's power level. -/
theorem claim_C4_witness :
    ∃ g, tempoParseRow tempoIdxW tempoLineW =
        .ok (some (getCol (jsSplit (jsTrim tempoLineW) ';') (TempoIdx.pSouscrite tempoIdxW), g)) ∧
      g.length = 7 ∧
      g.map (fun r => (r.price_type, r.day_type, r.hour_slots)) =
        [("consumption", some "blue", some offPeakSlots),
         ("consumption", some "blue", some peakSlots),
         ("consumption", some "white", some offPeakSlots),
         ("consumption", some "white", some peakSlots),
         ("consumption", some "red", some offPeakSlots),
         ("consumption", some "red", some peakSlots),
         ("subscription", none, none)] :=
  claim_C4.1 tempoIdxW tempoLineW (by decide) (by decide) (by decide) (by decide) (by decide)
    (by decide) (by decide) (by decide) (by decide) (by decide) (Or.inl (by decide))

/-- C6: temporal coverage parity: in the output of each tabular
converter, every power level satisfies the parity of consumption and
subscription date ranges, so the consistency step of the validator
accepts it; and that step raises the missing-subscription error exactly
when parity fails. -/
theorem claim_C6 :
    (∀ content out power prices, processBaseOptions content = .ok out →
        out.lookup power = some prices → checkSubscriptionConsistency prices = .ok ()) ∧
    (∀ content out power prices, processPeakOffPeakOptions content = .ok out →
        out.lookup power = some prices → checkSubscriptionConsistency prices = .ok ()) ∧
    (∀ content out power prices, processTempoOptions content = .ok out →
        out.lookup power = some prices → checkSubscriptionConsistency prices = .ok ()) ∧
    (∀ prices, checkSubscriptionConsistency prices =
        .error "Missing subscription price for date range" ↔ ¬ parityGroup prices) := by
  have hempty : ∀ (p : String) (l : List PriceRecord),
      (([] : List (String × List PriceRecord)).lookup p) = some l → parityGroup l := by
    intro p l hl
    simp at hl
  refine ⟨fun content out power prices h hl => ?_, fun content out power prices h hl => ?_,
    fun content out power prices h hl => ?_, fun prices => ?_⟩
  · simp only [processBaseOptions] at h
    split at h
    · cases h
    · exact (checkSubscriptionConsistency_ok_iff prices).mpr
        (processRows_parity _ (fun line p g hfp => flatParseRow_parity _ _ _ _ hfp)
          _ _ _ h hempty power prices hl)
  · simp only [processPeakOffPeakOptions] at h
    split at h
    · cases h
    · exact (checkSubscriptionConsistency_ok_iff prices).mpr
        (processRows_parity _ (fun line p g hfp => peakOffPeakParseRow_parity _ _ _ _ hfp)
          _ _ _ h hempty power prices hl)
  · simp only [processTempoOptions] at h
    split at h
    · cases h
    · exact (checkSubscriptionConsistency_ok_iff prices).mpr
        (processRows_parity _ (fun line p g hfp => tempoParseRow_parity _ _ _ _ hfp)
          _ _ _ h hempty power prices hl)
  · constructor
    · intro herr hpar
      have hok := (checkSubscriptionConsistency_ok_iff prices).mpr hpar
      rw [hok] at herr
      cases herr
    · intro hnpar
      rcases checkSubscriptionConsistency_cases prices with hok | herr
      · exact absurd ((checkSubscriptionConsistency_ok_iff prices).mp hok) hnpar
      · exact herr

/-- C6, witness: on a concrete flat-rate run the output of power level 6
passes the subscription-consistency check. -/
theorem claim_C6_witness :
    checkSubscriptionConsistency flatRecordsW = .ok () :=
  claim_C6.1 flatCsvW [("6", flatRecordsW)] "6" flatRecordsW (by decide) (by decide)

/-- Power-level lists of the subscription-table catalog converter never
share a consumption-copy address: the copies of one power level are
disjoint from the whole list of every other power level. -/
theorem processCatalogPowers_disjoint (catalog : List ℕ) :
    ∀ (subs : List (String × List ℕ)) (h : Heap),
      (∀ e ∈ subs, ∀ a ∈ e.2, a < h.next) →
      ∀ p q, p ≠ q → ∀ lp lq,
        (processCatalogPowers h catalog subs).1.lookup p = some lp →
        (processCatalogPowers h catalog subs).1.lookup q = some lq →
        ∀ a ∈ lp.take catalog.length, a ∉ lq := by
  intro subs
  induction subs with
  | nil =>
      intro h _ p q _ lp lq hp
      simp [processCatalogPowers] at hp
  | cons e rest ih =>
      obtain ⟨power, s⟩ := e
      intro h hsubs p q hpq lp lq hp hq
      rw [processCatalogPowers_cons] at hp hq
      dsimp only at hp hq
      by_cases hpw : p = power
      · rw [lookup_cons_pos _ _ _ _ hpw] at hp
        cases hp
        have hqw : ¬ q = power := fun hc => hpq (hpw.trans hc.symm)
        rw [lookup_cons_neg _ _ _ _ hqw] at hq
        intro a ha
        have hlen : (copyEntries h catalog).1.length = catalog.length :=
          (copyEntries_spec catalog h).2.1
        rw [List.take_append_of_le_length (le_of_eq hlen.symm)] at ha
        have ha2 := List.mem_of_mem_take ha
        obtain ⟨halow, hahigh⟩ := (copyEntries_spec catalog h).2.2 a ha2
        intro hmemq
        have hcase := processCatalogPowers_addrs catalog rest (copyEntries h catalog).2 h.next
          (fun e he => hsubs e (List.mem_cons_of_mem _ he)) q lq hq a hmemq
        have hnext2 := (copyEntries_spec catalog h).1
        rcases hcase with h1 | h1 <;> omega
      · rw [lookup_cons_neg _ _ _ _ hpw] at hp
        by_cases hqw : q = power
        · rw [lookup_cons_pos _ _ _ _ hqw] at hq
          cases hq
          intro a ha hmemq
          have halow := processCatalogPowers_take_lower catalog rest
            (copyEntries h catalog).2 p lp hp a ha
          have hnext2 := (copyEntries_spec catalog h).1
          rcases List.mem_append.mp hmemq with hm | hm
          · obtain ⟨hml, hmh⟩ := (copyEntries_spec catalog h).2.2 a hm
            omega
          · have := hsubs (power, s) (List.mem_cons_self _ _) a hm
            omega
        · rw [lookup_cons_neg _ _ _ _ hqw] at hq
          exact ih (copyEntries h catalog).2
            (fun e he x hx => by
              have hb1 := hsubs e (List.mem_cons_of_mem _ he) x hx
              have hb2 := (copyEntries_spec catalog h).1
              omega)
            p q hpq lp lq hp hq

/-- C8: static-catalog isolation: for any two distinct power levels of
the subscription table, every consumption-copy address of one is absent
from the other's whole list, so overwriting any record of one power
level's consumption copies leaves every record read through the other
power level's list unchanged. -/
theorem claim_C8 (h : Heap) (catalog : List ℕ) (subs : List (String × List ℕ))
    (hsubs : ∀ e ∈ subs, ∀ a ∈ e.2, a < h.next)
    (p q : String) (hpq : p ≠ q) (lp lq : List ℕ)
    (hp : (processCatalogPowers h catalog subs).1.lookup p = some lp)
    (hq : (processCatalogPowers h catalog subs).1.lookup q = some lq) :
    ∀ a ∈ lp.take catalog.length, a ∉ lq ∧
      ∀ (r : PriceRecord) (x : ℕ), x ∈ lq →
        heapGet (heapSet (processCatalogPowers h catalog subs).2 a r) x =
        heapGet (processCatalogPowers h catalog subs).2 x := by
  intro a ha
  have hdisj := processCatalogPowers_disjoint catalog subs h hsubs p q hpq lp lq hp hq a ha
  refine ⟨hdisj, fun r x hx => ?_⟩
  exact heapGet_heapSet_ne _ _ _ _ (fun hc => hdisj (hc ▸ hx))

/-- C8, witness: on a concrete two-power-level run (catalog entry at
address 0 copied to fresh addresses 2 and 3, shared subscription entry at
address 1), the copy address of power level 6 is not in the list of power
level 9, and overwriting it leaves the record read via power level 9
unchanged. -/
theorem claim_C8_witness :
    (2 : ℕ) ∉ ([3, 1] : List ℕ) ∧
    heapGet (heapSet (processCatalogPowers heapW [0] subsW).2 2 emptyRecord) 1 =
      heapGet (processCatalogPowers heapW [0] subsW).2 1 :=
  have h := claim_C8 heapW [0] subsW (by decide) "6" "9" (by decide) [2, 1] [3, 1]
    (by decide) (by decide)
  ⟨(h 2 (by decide)).1, (h 2 (by decide)).2 emptyRecord 1 (by decide)⟩

/-- C10: the fixed-power-list static-catalog converter returns exactly
the thirty-four power levels 3 through 36, each bound to a value-identical
copy of the parsed catalog; since the catalog holds only consumption
entries, no power level carries a subscription record, and every non-empty
power-level list fails the validator requirement of at least one
subscription price. -/
theorem claim_C10 (contractData : List PriceRecord)
    (hcat : alpiqCatalogConsumptionOnly contractData) (hne : contractData ≠ []) :
    (processBaseOptionsAlpiq contractData).map Prod.fst = subscribedPowersAlpiq ∧
    subscribedPowersAlpiq.length = 34 ∧
    ∀ power lst, (processBaseOptionsAlpiq contractData).lookup power = some lst →
      lst = contractData ∧ lst ≠ [] ∧
      (∀ r ∈ lst, r.price_type ≠ "subscription") ∧
      ∀ contractType, validateContractSpecificRequirements lst contractType =
        .error "must have at least one subscription price" := by
  have hmapid : contractData.map (fun priceEntry => priceEntry) = contractData :=
    List.map_id' contractData
  refine ⟨?_, by decide, fun power lst h => ?_⟩
  · rw [processBaseOptionsAlpiq, List.map_map]
    exact List.map_id' _
  · have hlst : lst = contractData := by
      have := lookup_map_const (contractData.map (fun priceEntry => priceEntry))
        subscribedPowersAlpiq power lst (by rw [← processBaseOptionsAlpiq]; exact h)
      rw [this, hmapid]
    subst hlst
    refine ⟨rfl, hne, hcat, fun contractType => ?_⟩
    have hfilter : lst.filter (fun p => p.price_type = "subscription") = [] := by
      rw [List.filter_eq_nil_iff]
      intro a ha
      simpa using hcat a ha
    simp [validateContractSpecificRequirements, hfilter]

/-- C10, witness: the converter applied to a one-entry consumption
catalog: the key list is the fixed power list and the list bound to power
level 3 fails the subscription requirement. -/
theorem claim_C10_witness :
    (processBaseOptionsAlpiq [alpiqCatalogEntryW]).map Prod.fst = subscribedPowersAlpiq ∧
    validateContractSpecificRequirements [alpiqCatalogEntryW] "alpiq-base" =
      .error "must have at least one subscription price" := by
  have h := claim_C10 [alpiqCatalogEntryW]
    (fun e he => by rw [List.mem_singleton] at he; subst he; decide) (by decide)
  exact ⟨h.1, ((h.2.2 "3" [alpiqCatalogEntryW] (by decide)).2.2.2 "alpiq-base")⟩

end EnergyContracts
